import Mathlib

/-!
# Verification of the `zcash-artifacts` build-cache and resolution engine

A shallow embedding of the `zcash-artifacts` crate (resolver, build
orchestrator, cache-key derivation, error taxonomy) together with proofs of
the specification's claims about it.

Conventions:
* Filesystem paths are modelled as lists of components (`Path`).
* Machine integers are `Nat`/`Int`; file permission bits use octal masks.
* External collaborators (git state, the external build capability, the
  version probe, the clock, tool lookup) are supplied as an explicit `World`
  record, following the spec's description of them as consumed capabilities
  (spec section 6).
* Fallible operations return `Except`; a Rust `todo!()` panic is modelled by
  the `RunResult.panicked` constructor.
* The compiled body of `resolve_local_build` in lib.rs is `todo!()`: the
  function panics on every input, and is embedded as such.  The algorithm it
  was meant to run exists in the source only as a commented-out sketch —
  dead text that is not executed and not embedded.  Helpers that have no
  implementation anywhere in `src` but are described by the spec
  (`build_key`, `cache_paths`, the executable validator, the lock protocol,
  the atomic publish sequence) are modelled from the spec, as marked on
  each, and are used to state what the program was specified to do.
-/

set_option maxHeartbeats 1000000

namespace ZcashArtifacts

/-- A filesystem path, as a list of path components (mirrors `PathBuf`
joins, where `a.join(b)` appends components). -/
abbrev Path := List String

/-- Rendering of a path for error-message contexts (mirrors
`Path::display`). -/
def pathStr (p : Path) : String := String.intercalate "/" p

/-- The character for a single decimal digit. -/
def digitChar (d : Nat) : Char :=
  if d = 0 then '0' else if d = 1 then '1' else if d = 2 then '2'
  else if d = 3 then '3' else if d = 4 then '4' else if d = 5 then '5'
  else if d = 6 then '6' else if d = 7 then '7' else if d = 8 then '8'
  else if d = 9 then '9' else '*'

/-- Fuel-driven decimal digit list of a natural (most significant first). -/
def natDecGo : Nat → Nat → List Char
  | _, 0 => []
  | n, fuel + 1 =>
    if n < 10 then [digitChar n]
    else natDecGo (n / 10) fuel ++ [digitChar (n % 10)]

/-- Decimal digit list of a natural number. -/
def natDecList (n : Nat) : List Char := natDecGo n (n + 1)

/-- Decimal string rendering of a natural number (the `<schema>` part of
the cache key). -/
def natDecStr (n : Nat) : String := ⟨natDecList n⟩

/-- Numeric value of a decimal digit character. -/
def digitVal (c : Char) : Nat :=
  if c = '0' then 0 else if c = '1' then 1 else if c = '2' then 2
  else if c = '3' then 3 else if c = '4' then 4 else if c = '5' then 5
  else if c = '6' then 6 else if c = '7' then 7 else if c = '8' then 8
  else if c = '9' then 9 else 10

/-- Decode a decimal digit list back to a natural number. -/
def decodeDec (l : List Char) : Nat := l.foldl (fun a c => 10 * a + digitVal c) 0

/-- Modelled from the spec: the cache-key derivation of the cache.rs module
docs (`build_key` is called in the commented-out body of
`resolve_local_build` but has no implementation in `src`):
`key = service + "|" + commit + ("+" + worktree_hash if present) + "|" + platform + "|v" + schema`. -/
def build_key (service commit : String) (worktree_hash : Option String)
    (platform : String) (schema : Nat) : String :=
  service ++ "|" ++ commit ++
    (match worktree_hash with
      | some h => "+" ++ h
      | none => "") ++
    "|" ++ platform ++ "|v" ++ natDecStr schema

/-- The lowercase hexadecimal characters, the alphabet of git SHAs and of
the worktree content hashes. -/
def hexChars : List Char := "0123456789abcdef".data

/-- A string over the hexadecimal alphabet (e.g. a full commit SHA or a
worktree content digest). -/
def IsHex (s : String) : Prop := ∀ c ∈ s.data, c ∈ hexChars

instance (s : String) : Decidable (IsHex s) := List.decidableBAll _ _

/-- A string not containing the key separator `|` (e.g. a platform triple
such as `linux-x86_64`). -/
def NoBar (s : String) : Prop := ∀ c ∈ s.data, c ≠ '|'

instance (s : String) : Decidable (NoBar s) := List.decidableBAll _ _

/-- The optional worktree hash, when present, is hexadecimal. -/
def IsHexOpt : Option String → Prop
  | none => True
  | some s => IsHex s

instance : (h : Option String) → Decidable (IsHexOpt h)
  | none => .isTrue trivial
  | some s => inferInstanceAs (Decidable (IsHex s))

/-- The character-list contribution of the optional worktree hash to the
key. -/
def whExt : Option String → List Char
  | none => []
  | some h => '+' :: h.data

/-! ## Data model (from lib.rs, registry.rs, git.rs) -/

/-- From lib.rs: the node daemon kinds. -/
inductive NodeKind
  | Zcashd
  | Zebrad
deriving DecidableEq, Repr

/-- From lib.rs: the indexer kinds. -/
inductive IndexerKind
  | Lightwalletd
  | Zainod
deriving DecidableEq, Repr

/-- From registry.rs: a service identifier (a copy-on-write string in the
source). -/
structure ServiceId where
  name : String
deriving DecidableEq, Repr

/-- From git.rs: the dirty-worktree policy. -/
inductive GitPolicy
  | RequireClean
  | AllowDirty (hash_untracked : Bool)
deriving DecidableEq, Repr

/-- From lib.rs: the resolved artifact, the sole success value. -/
inductive ResolvedArtifact
  | Executable (path : Path)
deriving DecidableEq, Repr

/-- From lib.rs: the artifact-source request variants, with the
`local-build` feature enabled (the `http`/`oci` variants are feature-gated
off in the MVP configuration). -/
inductive ArtifactSource
  | LocalPath (path : Path)
  | Release (service : ServiceId) (version : String)
  | Build (service : ServiceId) (repo : Path) (refspec : Option String)
      (policy : GitPolicy) (expected_output : Option Path)
deriving DecidableEq, Repr

/-- From lib.rs: the build configuration. -/
structure BuildConfig where
  allow_build : Bool
  default_jobs : Option Nat
  default_policy : GitPolicy
  default_expected_output : Path

/-- From lib.rs: the resolver configuration. -/
structure ResolverConfig where
  cache_root : Path
  build_config : BuildConfig

/-! ## Error taxonomy (from error.rs)

Only the variants reachable with the MVP feature set (`local-build`, no
`http`, no `oci`) are embedded.  `ServiceKind` is referenced by error.rs
(`use crate::ServiceKind`) but defined nowhere in `src`; it is modelled as
a service-name string. -/

/-- Referenced in error.rs but not defined in `src`; modelled as the
service-name string it identifies. -/
structure ServiceKind where
  name : String
deriving DecidableEq, Repr

/-- An `std::io::Error`, reduced to the kinds the embedding produces. -/
inductive IoErr
  | notFound
deriving DecidableEq, Repr

/-- From error.rs: input-class errors. -/
inductive InputError
  | NotFound (path : Path)
  | NotExecutable (path : Path)
  | InvalidSource (service : ServiceKind) (reason : String)
deriving DecidableEq, Repr

/-- From error.rs: release-location errors. -/
inductive LocateError
  | NoAsset (service : ServiceKind) (version : String) (platform : String)
  | ReleaseIndex (service : ServiceKind) (version : String) (why : String)
deriving DecidableEq, Repr

/-- From error.rs: fetch errors; with the `http` feature off only the
`Disabled` variant exists. -/
inductive FetchError
  | Disabled (url : String)
deriving DecidableEq, Repr

/-- From error.rs: verification errors (boxed error sources modelled as
message strings). -/
inductive VerifyError
  | ChecksumMismatch (url : String) (expected : String) (actual : String)
  | MissingChecksum (url : String)
  | SignatureInvalid (what : String) (source : String)
deriving DecidableEq, Repr

/-- From error.rs: unpack errors (boxed error sources modelled as message
strings). -/
inductive UnpackError
  | UnsupportedFormat (archive : String)
  | Entry (archive : String) (entry : String) (source : String)
  | Tool (archive : String) (source : String)
deriving DecidableEq, Repr

/-- From error.rs: OCI errors; with the `oci` feature off only the
`Disabled` variant exists. -/
inductive OciError
  | Disabled (reference : String)
deriving DecidableEq, Repr

/-- From error.rs: filesystem errors. -/
inductive FsError
  | Io (context : String) (source : IoErr)
  | Chmod (path : Path) (source : IoErr)
deriving DecidableEq, Repr

/-- From error.rs: platform errors. -/
inductive PlatformError
  | Unsupported (service : ServiceKind) (platform : String)
deriving DecidableEq, Repr

/-- From error.rs: build errors (behind the `local-build` feature).
Defined in the source but never constructed by any compiled code path;
note that `ArtifactError` has no variant embedding it and no
`From<BuildError>` impl exists, so the resolver's result type cannot even
carry these errors. -/
inductive BuildError
  | PreflightMissingTools (missing : String)
  | DisabledRuntime
  | DisabledFeature
  | ScriptFailed (exit_code : Int) (log_path : Path)
  | MissingOutput (expected : Path)
  | DirtyWorktree (repo : Path)
deriving DecidableEq, Repr

/-- From error.rs: the top-level error, exactly the eight variants the
source declares — in particular there is no variant for `BuildError`. -/
inductive ArtifactError
  | Input (e : InputError)
  | Locate (e : LocateError)
  | Fetch (e : FetchError)
  | Verify (e : VerifyError)
  | Unpack (e : UnpackError)
  | Oci (e : OciError)
  | Fs (e : FsError)
  | Platform (e : PlatformError)
deriving DecidableEq, Repr

/-! ## Filesystem model -/

/-- File metadata as consulted by `fs::metadata`: whether the object is a
regular file, and its Unix permission mode bits. -/
structure Metadata where
  isFile : Bool
  mode : Nat
deriving DecidableEq, Repr

/-- The filesystem state visible to the resolver: the metadata of each
existing object (regular files carry `isFile = true`; directories and
special files carry `isFile = false`). -/
structure FS where
  files : Path → Option Metadata

/-- `fs::metadata`: fails with a not-found I/O error on a missing path. -/
def FS.stat (fs : FS) (p : Path) : Except IoErr Metadata :=
  match fs.files p with
  | some md => .ok md
  | none => .error .notFound

/-- Modelled from the spec: the executable validator (spec section 4.3 in
its basic form, cache.rs "Executable sanity"): the path names a regular
file with an executable permission bit; a missing file is a plain `false`.
(No implementation exists in `src`; the optional owner-chmod and header
sniff are not modelled.)  Used to state what a validator-passing cached
binary is. -/
def looks_executable (fs : FS) (p : Path) : Bool :=
  match fs.files p with
  | some md => md.isFile && (md.mode &&& 0o111 != 0)
  | none => false

/-- A filesystem operation, recorded in a trace so that frame properties
("this function only reads") can be stated. -/
inductive Op
  | stat (p : Path)
  | mkdir (p : Path)
  | writeFile (p : Path)
  | rename (src dst : Path)
  | chmod (p : Path)
deriving DecidableEq, Repr

/-- Whether an operation is read-only. -/
def Op.isRead : Op → Bool
  | .stat _ => true
  | _ => false

/-! ## Local-path resolution (from lib.rs, implemented code) -/

/-- From lib.rs `ArtifactResolver::resolve_local_path` (with the Unix
permission branch active): stat the path — a stat failure is surfaced as
`FsError::Io` with context `stat <path>` — then require a regular file
(else `InputError::NotFound`), then require an executable permission bit
(else `InputError::NotExecutable`), and finally return the requested path
unchanged.  The filesystem is threaded through and a trace of the
operations performed is returned. -/
def resolve_local_path (fs : FS) (p : Path) :
    Except ArtifactError ResolvedArtifact × FS × List Op :=
  match fs.stat p with
  | .error e =>
    (.error (.Fs (.Io ("stat " ++ pathStr p) e)), fs, [.stat p])
  | .ok md =>
    if !md.isFile then
      (.error (.Input (.NotFound p)), fs, [.stat p])
    else if md.mode &&& 0o111 == 0 then
      (.error (.Input (.NotExecutable p)), fs, [.stat p])
    else
      (.ok (.Executable p), fs, [.stat p])

/-! ## The local-build resolution (lib.rs `resolve_local_build`) -/

/-- Modelled from the spec: the pure cache-layout mapping
`<cache_root>/<service>/<key>/{out,logs,meta}` (cache.rs directory
layout; no implementation exists in `src`).  Used to state where a
published binary for a key would live. -/
structure CachePaths where
  root : Path
  out : Path
  logs : Path
  meta : Path
deriving DecidableEq, Repr

/-- Modelled from the spec: `<cache_root>/<service>/<key>/{out,logs,meta}`
(cache.rs directory layout). -/
def cache_paths (cache_root : Path) (service key : String) : CachePaths :=
  { root := cache_root ++ [service, key]
    out := cache_root ++ [service, key, "out"]
    logs := cache_root ++ [service, key, "logs"]
    meta := cache_root ++ [service, key, "meta"] }

/-- The external collaborators a resolution could consume (spec section
6): git-state capabilities, host-platform detection, tool lookup for the
preflight, the clock, the external build capability and the version
probe.  All are oracles; the compiled `resolve_local_build` consults none
of them (it panics first). -/
structure World where
  /-- `git_resolve_commit(repo, refspec)`: the resolved full commit SHA. -/
  commit : String
  /-- `git_is_dirty(repo)`: whether the worktree has uncommitted changes. -/
  dirty : Bool
  /-- `hash_worktree(repo, hash_untracked)`: the worktree content hash. -/
  worktreeHash : Bool → String
  /-- `detect_host_triple()`: the host platform triple. -/
  host : String
  /-- Whether a given external build tool is present on the system. -/
  toolPresent : String → Bool
  /-- `now_ts()`: the log/provenance timestamp. -/
  ts : String
  /-- The automatic job count used when `default_jobs` is `None`. -/
  cpuJobs : Nat
  /-- The external build capability's outcome: `none` for success,
  `some code` for a non-zero exit. -/
  buildExit : Option Int
  /-- The metadata the external build leaves at the expected output path
  (`none`: the build produced nothing there). -/
  buildOutput : Option Metadata
  /-- `probe_version_string(bin).ok()`: the optional version string. -/
  versionString : Option String

/-- The observable outcome of a call whose source body may be `todo!()`:
a success, a typed error, or a Rust panic. -/
inductive RunResult (α : Type) (ε : Type)
  | ok (a : α)
  | err (e : ε)
  | panicked (msg : String)
deriving DecidableEq, Repr

/-- From lib.rs `ArtifactResolver::resolve_local_build` (line 179): the
entire compiled body is `todo!()`, so the function panics on every input
— it never checks the cache, never takes the lock, never invokes a build,
never derives a key and never writes provenance.  The algorithm it was
meant to run exists in the source only as a commented-out sketch, which
is dead text and is not embedded here.  The environment parameters are
carried so that panicking can be stated at any cache/git/tool state. -/
def resolve_local_build (cfg : ResolverConfig) (w : World) (fs : FS)
    (service : ServiceId) (repo : Path) (refspec : Option String)
    (policy : GitPolicy) (expected_output : Option Path) :
    RunResult ResolvedArtifact ArtifactError :=
  .panicked "not yet implemented"

/-- From lib.rs `ArtifactResolver::resolve`: dispatch on the artifact
source.  In the source the `LocalPath` and `Release` arms are `todo!()`
and panic (in particular the implemented `resolve_local_path` is never
called); the `Build` arm delegates to `resolve_local_build`, whose body is
itself `todo!()`.  The resolver's optional registry field is not consulted
by `resolve` and is not modelled. -/
def ArtifactResolver.resolve (cfg : ResolverConfig) (w : World) (fs : FS) :
    ArtifactSource → RunResult ResolvedArtifact ArtifactError
  | .LocalPath _ => .panicked "not yet implemented"
  | .Release _ _ => .panicked "not yet implemented"
  | .Build service repo refspec policy expected_output =>
    resolve_local_build cfg w fs service repo refspec policy expected_output

/-! ## Atomic publish (spec-modelled micro-step machine, for C8) -/

/-- Content of a file during publishing: a half-written temporary or the
whole payload. -/
inductive Content
  | part
  | whole (data : String)
deriving DecidableEq, Repr

/-- The two paths atomic publishing touches: the temporary name and the
canonical destination `out/<binary>`. -/
structure PubFS where
  tmp : Option Content
  dst : Option Content
deriving DecidableEq, Repr

/-- The micro-steps of `atomic_copy`: begin writing the temporary file,
finish writing it, and rename it onto the destination. -/
inductive PubStep
  | startWrite
  | finishWrite
  | rename
deriving DecidableEq, Repr

/-- Modelled from the spec: the effect of each publish micro-step
(`atomic_copy` is called in the commented-out body of
`resolve_local_build` but has no implementation in `src`; the spec
describes it as write-to-temporary-name-then-rename).  A crash between
`startWrite` and `finishWrite` leaves a half-written temporary. -/
def pubApply (data : String) : PubStep → PubFS → PubFS
  | .startWrite, s => { s with tmp := some .part }
  | .finishWrite, s => { s with tmp := some (.whole data) }
  | .rename, s => { tmp := none, dst := s.tmp }

/-- Run a sequence of publish micro-steps. -/
def runPub (data : String) (s : PubFS) (steps : List PubStep) : PubFS :=
  steps.foldl (fun s st => pubApply data st s) s

/-- The complete publish sequence. -/
def pubSeq : List PubStep := [.startWrite, .finishWrite, .rename]

/-! ## Concurrency model (spec-modelled, for C9)

Two threads resolve the same cache key concurrently, starting from a cache
miss.  Each runs the phase structure the spec prescribes for the
build-and-finalize window (spec sections 4.4, 4.5 and 5; cache.rs
"Atomicity & concurrency"): racy pre-lock cache check, blocking lock
acquisition, post-lock re-check, build, publish, release. -/

/-- A thread's program counter inside one resolution of a fixed key. -/
inductive PC
  | start
  | waitLock
  | postCheck
  | building
  | publishing
  | releasing
  | releaseHit
  | doneBuilt
  | doneHit
deriving DecidableEq, Repr

/-- The shared state of two concurrent resolutions of the same key:
thread program counters, the per-key lock holder, whether a validated
`out/<binary>` is published, and the number of build invocations so far. -/
structure CState where
  pcT : PC
  pcF : PC
  lock : Option Bool
  outValid : Bool
  builds : Nat
deriving DecidableEq, Repr

/-- The program counter of a thread (threads are named by `Bool`). -/
def getPc (s : CState) (t : Bool) : PC := if t then s.pcT else s.pcF

/-- Replace the program counter of a thread. -/
def setPc (s : CState) (t : Bool) (p : PC) : CState :=
  if t then { s with pcT := p } else { s with pcF := p }

/-- The initial state: both threads about to resolve, lock free, cache
miss, no builds yet. -/
def cInit : CState :=
  { pcT := .start, pcF := .start, lock := none, outValid := false, builds := 0 }

/-- Modelled from the spec: one interleaving step of the two concurrent
resolutions (spec sections 4.4, 4.5 and 5; cache.rs "Atomicity &
concurrency").  The pre-lock check is racy; the lock serializes
postCheck → release; publish makes `out/<binary>` valid atomically. -/
inductive CStep : CState → CState → Prop
  | preHit (s : CState) (t : Bool) :
      getPc s t = .start → s.outValid = true → CStep s (setPc s t .doneHit)
  | preMiss (s : CState) (t : Bool) :
      getPc s t = .start → s.outValid = false → CStep s (setPc s t .waitLock)
  | acquire (s : CState) (t : Bool) :
      getPc s t = .waitLock → s.lock = none →
      CStep s (setPc { s with lock := some t } t .postCheck)
  | postHit (s : CState) (t : Bool) :
      getPc s t = .postCheck → s.outValid = true → CStep s (setPc s t .releaseHit)
  | postMiss (s : CState) (t : Bool) :
      getPc s t = .postCheck → s.outValid = false → CStep s (setPc s t .building)
  | build (s : CState) (t : Bool) :
      getPc s t = .building →
      CStep s (setPc { s with builds := s.builds + 1 } t .publishing)
  | publish (s : CState) (t : Bool) :
      getPc s t = .publishing →
      CStep s (setPc { s with outValid := true } t .releasing)
  | release (s : CState) (t : Bool) :
      getPc s t = .releasing → CStep s (setPc { s with lock := none } t .doneBuilt)
  | releaseH (s : CState) (t : Bool) :
      getPc s t = .releaseHit → CStep s (setPc { s with lock := none } t .doneHit)

/-- States reachable from the initial cache-miss state. -/
inductive CReach : CState → Prop
  | init : CReach cInit
  | next {s s' : CState} : CReach s → CStep s s' → CReach s'

/-- The phases during which a thread must hold the per-key lock. -/
def inCrit : PC → Bool
  | .postCheck | .building | .publishing | .releasing | .releaseHit => true
  | _ => false

/-- The phases from which a published, valid `out/<binary>` is
guaranteed. -/
def inPub : PC → Bool
  | .releasing | .doneBuilt => true
  | _ => false

/-- The phases a thread only reaches by having invoked the build. -/
def passedBuild : PC → Bool
  | .publishing | .releasing | .doneBuilt => true
  | _ => false

/-- The phases a thread only reaches by having entered the build path. -/
def startedBuild : PC → Bool
  | .building | .publishing | .releasing | .doneBuilt => true
  | _ => false

/-- A terminal phase. -/
def isDone : PC → Bool
  | .doneBuilt | .doneHit => true
  | _ => false

/-- Build count contributed by one thread. -/
def bcount (p : PC) : Nat := if passedBuild p then 1 else 0

/-- The inductive invariant of the two-thread interleaving model. -/
def CInv (s : CState) : Prop :=
  (inCrit s.pcT = true → s.lock = some true) ∧
  (inCrit s.pcF = true → s.lock = some false) ∧
  (s.outValid = true ↔ (inPub s.pcT = true ∨ inPub s.pcF = true)) ∧
  s.builds = bcount s.pcT + bcount s.pcF ∧
  ¬(startedBuild s.pcT = true ∧ startedBuild s.pcF = true) ∧
  ((s.pcT = .doneHit ∨ s.pcT = .releaseHit) → inPub s.pcF = true) ∧
  ((s.pcF = .doneHit ∨ s.pcF = .releaseHit) → inPub s.pcT = true)

instance {ε α : Type} [DecidableEq ε] [DecidableEq α] : DecidableEq (Except ε α) :=
  fun x y =>
    match x, y with
    | .ok a, .ok b => if h : a = b then .isTrue (by rw [h]) else .isFalse (by simp [h])
    | .error e, .error f => if h : e = f then .isTrue (by rw [h]) else .isFalse (by simp [h])
    | .ok _, .error _ => .isFalse (by simp)
    | .error _, .ok _ => .isFalse (by simp)

/-! ## Concrete sample values used by witnesses and counterexamples -/

/-- A sample resolver configuration with builds enabled. -/
def cfgS : ResolverConfig :=
  { cache_root := ["cache"]
    build_config :=
      { allow_build := true, default_jobs := some 2,
        default_policy := .RequireClean,
        default_expected_output := ["src", "zcashd"] } }

/-- A sample world: clean repository at commit `ab`, all build tools
present, the external build succeeds and produces an executable output. -/
def wS : World :=
  { commit := "ab", dirty := false, worktreeHash := fun _ => "9f",
    host := "linux-x86_64", toolPresent := fun _ => true, ts := "20250929",
    cpuJobs := 4, buildExit := none,
    buildOutput := some ⟨true, 0o755⟩, versionString := some "v5.9.0" }

/-- The empty filesystem. -/
def fsEmpty : FS := ⟨fun _ => none⟩

/-- A filesystem holding exactly one executable regular file. -/
def fsWith (p : Path) : FS := ⟨fun q => if q = p then some ⟨true, 0o755⟩ else none⟩

/-- A filesystem holding exactly one regular file with the given mode. -/
def fsWithMode (p : Path) (m : Nat) : FS :=
  ⟨fun q => if q = p then some ⟨true, m⟩ else none⟩

/-- A filesystem holding exactly one directory. -/
def fsWithDir (p : Path) : FS := ⟨fun q => if q = p then some ⟨false, 0o755⟩ else none⟩

/-! ## Theorems -/

theorem digitVal_digitChar {d : Nat} (h : d < 10) : digitVal (digitChar d) = d := by
  interval_cases d <;> rfl

theorem decodeDec_append_singleton (l : List Char) (c : Char) :
    decodeDec (l ++ [c]) = 10 * decodeDec l + digitVal c := by
  simp [decodeDec, List.foldl_append]

theorem decodeDec_natDecGo : ∀ fuel n, n < fuel → decodeDec (natDecGo n fuel) = n := by
  intro fuel
  induction fuel with
  | zero => intro n h; omega
  | succ f ih =>
    intro n h
    unfold natDecGo
    by_cases h10 : n < 10
    · simp only [h10, if_true]
      simp [decodeDec, digitVal_digitChar h10]
    · simp only [h10, if_false]
      rw [decodeDec_append_singleton, ih (n / 10) (by omega),
        digitVal_digitChar (Nat.mod_lt _ (by omega))]
      omega

theorem natDecList_inj {m n : Nat} (h : natDecList m = natDecList n) : m = n := by
  have hm := decodeDec_natDecGo (m + 1) m (by omega)
  have hn := decodeDec_natDecGo (n + 1) n (by omega)
  unfold natDecList at h
  rw [h] at hm
  omega

theorem hex_no_bar {s : String} (h : IsHex s) : '|' ∉ s.data := by
  intro hmem
  have := h _ hmem
  simp [hexChars] at this

theorem hex_no_plus {s : String} (h : IsHex s) : '+' ∉ s.data := by
  intro hmem
  have := h _ hmem
  simp [hexChars] at this

theorem whExt_no_bar {h : Option String} (hh : IsHexOpt h) : '|' ∉ whExt h := by
  cases h with
  | none => simp [whExt]
  | some s =>
    simp only [whExt, List.mem_cons, not_or]
    exact ⟨by decide, hex_no_bar hh⟩

theorem split_sep (sep : Char) :
    ∀ xs as ys bs : List Char, sep ∉ xs → sep ∉ as →
      xs ++ sep :: ys = as ++ sep :: bs → xs = as ∧ ys = bs := by
  intro xs
  induction xs with
  | nil =>
    intro as ys bs _ ha h
    cases as with
    | nil => simpa using h
    | cons a as' =>
      simp only [List.nil_append, List.cons_append, List.cons.injEq] at h
      exact absurd (h.1 ▸ List.mem_cons_self a as') (by simp [h.1] at ha)
  | cons x xs ih =>
    intro as ys bs hx ha h
    cases as with
    | nil =>
      simp only [List.cons_append, List.nil_append, List.cons.injEq] at h
      exact absurd (h.1 ▸ List.mem_cons_self x xs) (by simp [h.1] at hx)
    | cons a as' =>
      simp only [List.cons_append, List.cons.injEq] at h
      obtain ⟨rfl, h2⟩ := h
      have hx' : sep ∉ xs := fun hm => hx (List.mem_cons_of_mem _ hm)
      have ha' : sep ∉ as' := fun hm => ha (List.mem_cons_of_mem _ hm)
      obtain ⟨h3, h4⟩ := ih as' ys bs hx' ha' h2
      exact ⟨by rw [h3], h4⟩

theorem build_key_data (s c : String) (h : Option String) (p : String) (v : Nat) :
    (build_key s c h p v).data =
      s.data ++ '|' :: ((c.data ++ whExt h) ++ '|' :: (p.data ++ '|' :: 'v' :: natDecList v)) := by
  cases h <;>
    simp [build_key, whExt, natDecStr, String.data_append]

theorem commit_whExt_inj {c₁ c₂ : String} {h₁ h₂ : Option String}
    (hc₁ : IsHex c₁) (hc₂ : IsHex c₂)
    (heq : c₁.data ++ whExt h₁ = c₂.data ++ whExt h₂) : c₁ = c₂ ∧ h₁ = h₂ := by
  cases h₁ with
  | none =>
    cases h₂ with
    | none =>
      simp only [whExt, List.append_nil] at heq
      exact ⟨String.ext heq, rfl⟩
    | some x₂ =>
      exfalso
      apply hex_no_plus hc₁
      rw [show c₁.data = c₁.data ++ whExt (none : Option String) by simp [whExt], heq]
      exact List.mem_append_right _ (List.mem_cons_self _ _)
  | some x₁ =>
    cases h₂ with
    | none =>
      exfalso
      apply hex_no_plus hc₂
      rw [show c₂.data = c₂.data ++ whExt (none : Option String) by simp [whExt], ← heq]
      exact List.mem_append_right _ (List.mem_cons_self _ _)
    | some x₂ =>
      simp only [whExt] at heq
      obtain ⟨e1, e2⟩ := split_sep '+' _ _ _ _ (hex_no_plus hc₁) (hex_no_plus hc₂) heq
      exact ⟨String.ext e1, by rw [String.ext e2]⟩

/-- C2: the cache key is a pure deterministic function of
(service, commit, optional worktree hash, platform, schema): identical
tuples give the identical key (the `←` direction), and — provided the
commit and worktree hash are hexadecimal and the platform triple contains
no `|`, as the spec's delimiter discipline requires — changing any one of
commit, dirty flag (presence of the hash), worktree hash, platform or
schema changes the key (the `→` direction); in particular a clean and a
dirty build of the same commit never collide (`none ≠ some _`). -/
theorem cache_key_deterministic_and_discriminating
    (s c₁ c₂ : String) (h₁ h₂ : Option String) (p₁ p₂ : String) (v₁ v₂ : Nat)
    (hc₁ : IsHex c₁) (hc₂ : IsHex c₂) (hh₁ : IsHexOpt h₁) (hh₂ : IsHexOpt h₂)
    (hp₁ : NoBar p₁) (hp₂ : NoBar p₂) :
    build_key s c₁ h₁ p₁ v₁ = build_key s c₂ h₂ p₂ v₂ ↔
      c₁ = c₂ ∧ h₁ = h₂ ∧ p₁ = p₂ ∧ v₁ = v₂ := by
  constructor
  · intro heq
    have hd := congrArg String.data heq
    rw [build_key_data, build_key_data] at hd
    have hd2 : ('|' :: ((c₁.data ++ whExt h₁) ++ '|' :: (p₁.data ++ '|' :: 'v' :: natDecList v₁)))
        = ('|' :: ((c₂.data ++ whExt h₂) ++ '|' :: (p₂.data ++ '|' :: 'v' :: natDecList v₂))) :=
      List.append_cancel_left hd
    injection hd2 with _ hd3
    have nb₁ : '|' ∉ c₁.data ++ whExt h₁ := by
      simp only [List.mem_append, not_or]
      exact ⟨hex_no_bar hc₁, whExt_no_bar hh₁⟩
    have nb₂ : '|' ∉ c₂.data ++ whExt h₂ := by
      simp only [List.mem_append, not_or]
      exact ⟨hex_no_bar hc₂, whExt_no_bar hh₂⟩
    obtain ⟨hcp, hrest⟩ := split_sep '|' _ _ _ _ nb₁ nb₂ hd3
    have np₁ : '|' ∉ p₁.data := fun hm => hp₁ _ hm rfl
    have np₂ : '|' ∉ p₂.data := fun hm => hp₂ _ hm rfl
    obtain ⟨hp, hvs⟩ := split_sep '|' _ _ _ _ np₁ np₂ hrest
    injection hvs with _ hv
    obtain ⟨hc, hh⟩ := commit_whExt_inj hc₁ hc₂ hcp
    exact ⟨hc, hh, String.ext hp, natDecList_inj hv⟩
  · rintro ⟨rfl, rfl, rfl, rfl⟩
    rfl

/-- C2 witness: concrete evaluation of the key-discrimination theorem — a
clean build and a dirty build of the same commit get different keys. -/
theorem cache_key_witness :
    IsHex "abc123" ∧ IsHexOpt (some "9f") ∧ NoBar "linux-x86_64" ∧
      build_key "zcashd" "abc123" none "linux-x86_64" 1 ≠
        build_key "zcashd" "abc123" (some "9f") "linux-x86_64" 1 := by
  refine ⟨by decide, by decide, by decide, fun h => ?_⟩
  have := (cache_key_deterministic_and_discriminating "zcashd" "abc123" "abc123"
      none (some "9f") "linux-x86_64" "linux-x86_64" 1 1
      (by decide) (by decide) (by decide) (by decide) (by decide) (by decide)).mp h
  simp at this

/-- C1 (code bug): lib.rs `resolve_local_build` (line 179) is `todo!()`
and panics on every input — here even for a request whose computed cache
key (per the spec-modelled derivation) already has a published,
validator-passing binary at `out/zcashd` — so the program never returns a
cache hit; the cache-hit short-circuit the claim (and spec section 4.5
step 2) describes is not implemented. -/
theorem cache_hit_panics_code_bug :
    looks_executable
        (fsWith ((cache_paths ["cache"] "zcashd"
          (build_key "zcashd" "ab" none "linux-x86_64" 1)).out ++ ["zcashd"]))
        ((cache_paths ["cache"] "zcashd"
          (build_key "zcashd" "ab" none "linux-x86_64" 1)).out ++ ["zcashd"]) = true ∧
    resolve_local_build cfgS wS
        (fsWith ((cache_paths ["cache"] "zcashd"
          (build_key "zcashd" "ab" none "linux-x86_64" 1)).out ++ ["zcashd"]))
        ⟨"zcashd"⟩ ["repo"] none .RequireClean none =
      .panicked "not yet implemented" :=
  ⟨by decide, rfl⟩

/-- C3 (code bug): with a required build tool (indeed every tool) missing,
lib.rs `resolve_local_build` — being `todo!()` — panics instead of failing
with the preflight error the claim (and spec section 4.5 step 1)
specifies; it creates no directories and produces no typed failure, and
error.rs's `ArtifactError` has no variant that could carry
`BuildError::PreflightMissingTools`. -/
theorem preflight_panics_code_bug :
    ({ wS with toolPresent := fun _ => false } : World).toolPresent "git" = false ∧
    resolve_local_build cfgS { wS with toolPresent := fun _ => false } fsEmpty
        ⟨"zcashd"⟩ ["repo"] none .RequireClean none =
      .panicked "not yet implemented" :=
  ⟨rfl, rfl⟩

/-- C4 (code bug): for a dirty worktree under policy `RequireClean`,
lib.rs `resolve_local_build` — being `todo!()` — panics instead of
failing with the dirty-worktree error the claim specifies; moreover
error.rs's `ArtifactError` has no variant that could carry
`BuildError::DirtyWorktree`. -/
theorem dirty_requireclean_panics_code_bug :
    ({ wS with dirty := true } : World).dirty = true ∧
    resolve_local_build cfgS { wS with dirty := true } fsEmpty
        ⟨"zcashd"⟩ ["repo"] none .RequireClean none =
      .panicked "not yet implemented" :=
  ⟨rfl, rfl⟩

/-- C5 (code bug): lib.rs `resolve_local_build` — being `todo!()` — panics
on every request, here a dirty worktree under `AllowDirty`: it computes no
artifact identity and writes no provenance record, so the worktree-hash
discipline the claim specifies (`Some` exactly when dirty and allowed) is
behavior the program does not perform. -/
theorem worktree_hash_panics_code_bug :
    ({ wS with dirty := true } : World).dirty = true ∧
    resolve_local_build cfgS { wS with dirty := true } fsEmpty
        ⟨"zcashd"⟩ ["repo"] none (.AllowDirty false) none =
      .panicked "not yet implemented" :=
  ⟨rfl, rfl⟩

/-- C6 (code bug): in lib.rs, `ArtifactResolver::resolve` routes a
`LocalPath` source to `todo!()` and panics — for every input, including an
existing executable regular file — even though `resolve_local_path`, the
local-path validation the spec says `resolve` routes to, is implemented
(and never called) and returns `Ok(Executable)` carrying exactly the
requested path for that same file. -/
theorem resolve_localpath_todo_code_bug :
    ArtifactResolver.resolve cfgS wS (fsWith ["usr", "bin", "znode"])
        (.LocalPath ["usr", "bin", "znode"]) = .panicked "not yet implemented" ∧
    (resolve_local_path (fsWith ["usr", "bin", "znode"]) ["usr", "bin", "znode"]).1 =
        .ok (.Executable ["usr", "bin", "znode"]) := by
  exact ⟨rfl, by decide⟩

/-- C7 counterexample: resolving the nonexistent local path `tmp/zcashd`
fails with the generic filesystem I/O error (`FsError::Io` with context
`stat tmp/zcashd`), not with the input-class `InputError::NotFound` error
the claim states. -/
theorem local_path_missing_counterexample :
    (resolve_local_path fsEmpty ["tmp", "zcashd"]).1 =
        .error (.Fs (.Io "stat tmp/zcashd" .notFound)) ∧
    (resolve_local_path fsEmpty ["tmp", "zcashd"]).1 ≠
        .error (.Input (.NotFound ["tmp", "zcashd"])) := by
  exact ⟨by decide, by decide⟩

/-- C7 (amended): a `LocalPath` naming a path that does not exist fails
with the filesystem I/O error (`FsError::Io`, context `stat <path>`) —
not with the input-class NotFound error; the `InputError::NotFound`
variant is returned exactly when the path exists but is not a regular
file. -/
theorem local_path_missing_is_io_error (fs : FS) (p : Path) :
    (fs.files p = none →
      (resolve_local_path fs p).1 =
          .error (.Fs (.Io ("stat " ++ pathStr p) .notFound)) ∧
      (resolve_local_path fs p).1 ≠ .error (.Input (.NotFound p))) ∧
    (∀ md, fs.files p = some md → md.isFile = false →
      (resolve_local_path fs p).1 = .error (.Input (.NotFound p))) := by
  constructor
  · intro hnone
    unfold resolve_local_path FS.stat
    rw [hnone]
    exact ⟨rfl, by simp⟩
  · intro md hmd hfile
    unfold resolve_local_path FS.stat
    rw [hmd]
    simp [hfile]

/-- C7 witness: the amended statement evaluated at a missing path and at a
directory. -/
theorem local_path_missing_is_io_error_witness :
    ((resolve_local_path fsEmpty ["opt", "zd"]).1 =
        .error (.Fs (.Io "stat opt/zd" .notFound)) ∧
      (resolve_local_path fsEmpty ["opt", "zd"]).1 ≠
        .error (.Input (.NotFound ["opt", "zd"]))) ∧
    (resolve_local_path (fsWithDir ["opt", "zd"]) ["opt", "zd"]).1 =
        .error (.Input (.NotFound ["opt", "zd"])) :=
  ⟨(local_path_missing_is_io_error fsEmpty ["opt", "zd"]).1 rfl,
    (local_path_missing_is_io_error (fsWithDir ["opt", "zd"]) ["opt", "zd"]).2
      ⟨false, 0o755⟩ (by decide) rfl⟩

/-- C10: `resolve_local_path` never mutates the filesystem — it returns
the state unchanged and its operation trace holds only reads (one stat) —
when the file exists but lacks the executable permission bits it returns
the `NotExecutable` error without setting the bit itself, and on success
it returns the input path unmodified (no copy, no canonicalization, no
cache write). -/
theorem resolve_local_path_frame (fs : FS) (p : Path) :
    (resolve_local_path fs p).2.1 = fs ∧
    (∀ op ∈ (resolve_local_path fs p).2.2, op.isRead = true) ∧
    (∀ a, (resolve_local_path fs p).1 = .ok a → a = .Executable p) ∧
    (∀ md, fs.files p = some md → md.isFile = true → md.mode &&& 0o111 = 0 →
      (resolve_local_path fs p).1 = .error (.Input (.NotExecutable p))) := by
  unfold resolve_local_path FS.stat
  cases hf : fs.files p with
  | none =>
    refine ⟨rfl, ?_, ?_, ?_⟩
    · intro op hop
      simp at hop
      simp [hop, Op.isRead]
    · intro a ha
      simp at ha
    · intro md hmd
      simp at hmd
  | some md =>
    by_cases hisf : md.isFile
    · by_cases hm : md.mode &&& 0o111 = 0
      · refine ⟨by simp [hisf, hm], ?_, ?_, ?_⟩
        · intro op hop
          simp [hisf, hm] at hop
          simp [hop, Op.isRead]
        · intro a ha
          simp [hisf, hm] at ha
        · intro md' hmd' _ _
          simp only [Option.some.injEq] at hmd'
          simp [hisf, hm]
      · refine ⟨by simp [hisf, hm], ?_, ?_, ?_⟩
        · intro op hop
          simp [hisf, hm] at hop
          simp [hop, Op.isRead]
        · intro a ha
          simp [hisf, hm] at ha
          simp [ha]
        · intro md' hmd' hisf' hm'
          simp only [Option.some.injEq] at hmd'
          subst hmd'
          exact absurd hm' hm
    · refine ⟨by simp [hisf], ?_, ?_, ?_⟩
      · intro op hop
        simp [hisf] at hop
        simp [hop, Op.isRead]
      · intro a ha
        simp [hisf] at ha
      · intro md' hmd' hisf' _
        simp only [Option.some.injEq] at hmd'
        subst hmd'
        exact absurd hisf' (by simp [hisf])

/-- C10 witness: a plain (non-executable) regular file — the resolution
returns `NotExecutable`, the filesystem is returned unchanged, and the
trace holds only the stat. -/
theorem resolve_local_path_frame_witness :
    (resolve_local_path (fsWithMode ["a"] 0o644) ["a"]).2.1 = fsWithMode ["a"] 0o644 ∧
    (resolve_local_path (fsWithMode ["a"] 0o644) ["a"]).1 =
        .error (.Input (.NotExecutable ["a"])) :=
  ⟨(resolve_local_path_frame (fsWithMode ["a"] 0o644) ["a"]).1,
    (resolve_local_path_frame (fsWithMode ["a"] 0o644) ["a"]).2.2.2 ⟨true, 0o644⟩
      (by decide) rfl (by decide)⟩

/-- C8: publishing is write-to-temporary-then-rename: interrupted after
zero, one or two micro-steps (that is, anywhere before the rename) the
canonical destination `out/<binary>` still holds its pre-existing content
intact; a half-written temporary is never visible at the canonical path
(provided one was not already there); and only the completed sequence
installs the whole payload at the destination. -/
theorem atomic_publish (data : String) (s : PubFS) (hd : s.dst ≠ some .part) :
    (runPub data s []).dst = s.dst ∧
    (runPub data s [.startWrite]).dst = s.dst ∧
    (runPub data s [.startWrite, .finishWrite]).dst = s.dst ∧
    (runPub data s pubSeq).dst = some (.whole data) ∧
    (runPub data s []).dst ≠ some .part ∧
    (runPub data s [.startWrite]).dst ≠ some .part ∧
    (runPub data s [.startWrite, .finishWrite]).dst ≠ some .part ∧
    (runPub data s pubSeq).dst ≠ some .part := by
  refine ⟨rfl, rfl, rfl, rfl, hd, hd, hd, by simp [runPub, pubSeq, pubApply]⟩

/-- C8 witness: publishing payload `bin` over a destination holding `old`
— every interruption point leaves `old` intact, and completion installs
`bin`. -/
theorem atomic_publish_witness :
    (runPub "bin" ⟨none, some (.whole "old")⟩ []).dst = some (.whole "old") ∧
    (runPub "bin" ⟨none, some (.whole "old")⟩ [.startWrite]).dst = some (.whole "old") ∧
    (runPub "bin" ⟨none, some (.whole "old")⟩ [.startWrite, .finishWrite]).dst =
        some (.whole "old") ∧
    (runPub "bin" ⟨none, some (.whole "old")⟩ pubSeq).dst = some (.whole "bin") ∧
    (runPub "bin" ⟨none, some (.whole "old")⟩ pubSeq).dst ≠ some .part :=
  ⟨(atomic_publish "bin" ⟨none, some (.whole "old")⟩ (by decide)).1,
    (atomic_publish "bin" ⟨none, some (.whole "old")⟩ (by decide)).2.1,
    (atomic_publish "bin" ⟨none, some (.whole "old")⟩ (by decide)).2.2.1,
    (atomic_publish "bin" ⟨none, some (.whole "old")⟩ (by decide)).2.2.2.1,
    (atomic_publish "bin" ⟨none, some (.whole "old")⟩ (by decide)).2.2.2.2.2.2.2⟩

theorem CInv_init : CInv cInit := by
  simp [CInv, cInit, inCrit, inPub, passedBuild, startedBuild, bcount]

theorem CInv_step {s s' : CState} (hInv : CInv s) (hs : CStep s s') : CInv s' := by
  obtain ⟨h1, h2, h3, h4, h5, h6, h7⟩ := hInv
  cases hs with
  | preHit t hpc hov =>
    cases t with
    | true =>
      simp [getPc] at hpc
      cases hB : s.pcF <;>
        simp_all [CInv, setPc, inCrit, inPub, passedBuild, startedBuild, bcount]
    | false =>
      simp [getPc] at hpc
      cases hA : s.pcT <;>
        simp_all [CInv, setPc, inCrit, inPub, passedBuild, startedBuild, bcount]
  | preMiss t hpc hov =>
    cases t with
    | true =>
      simp [getPc] at hpc
      cases hB : s.pcF <;>
        simp_all [CInv, setPc, inCrit, inPub, passedBuild, startedBuild, bcount]
    | false =>
      simp [getPc] at hpc
      cases hA : s.pcT <;>
        simp_all [CInv, setPc, inCrit, inPub, passedBuild, startedBuild, bcount]
  | acquire t hpc hlk =>
    cases t with
    | true =>
      simp [getPc] at hpc
      cases hB : s.pcF <;>
        simp_all [CInv, setPc, inCrit, inPub, passedBuild, startedBuild, bcount]
    | false =>
      simp [getPc] at hpc
      cases hA : s.pcT <;>
        simp_all [CInv, setPc, inCrit, inPub, passedBuild, startedBuild, bcount]
  | postHit t hpc hov =>
    cases t with
    | true =>
      simp [getPc] at hpc
      cases hB : s.pcF <;>
        simp_all [CInv, setPc, inCrit, inPub, passedBuild, startedBuild, bcount]
    | false =>
      simp [getPc] at hpc
      cases hA : s.pcT <;>
        simp_all [CInv, setPc, inCrit, inPub, passedBuild, startedBuild, bcount]
  | postMiss t hpc hov =>
    cases t with
    | true =>
      simp [getPc] at hpc
      cases hB : s.pcF <;>
        simp_all [CInv, setPc, inCrit, inPub, passedBuild, startedBuild, bcount]
    | false =>
      simp [getPc] at hpc
      cases hA : s.pcT <;>
        simp_all [CInv, setPc, inCrit, inPub, passedBuild, startedBuild, bcount]
  | build t hpc =>
    cases t with
    | true =>
      simp [getPc] at hpc
      cases hB : s.pcF <;>
        simp_all [CInv, setPc, inCrit, inPub, passedBuild, startedBuild, bcount]
    | false =>
      simp [getPc] at hpc
      cases hA : s.pcT <;>
        simp_all [CInv, setPc, inCrit, inPub, passedBuild, startedBuild, bcount]
  | publish t hpc =>
    cases t with
    | true =>
      simp [getPc] at hpc
      cases hB : s.pcF <;>
        simp_all [CInv, setPc, inCrit, inPub, passedBuild, startedBuild, bcount]
    | false =>
      simp [getPc] at hpc
      cases hA : s.pcT <;>
        simp_all [CInv, setPc, inCrit, inPub, passedBuild, startedBuild, bcount]
  | release t hpc =>
    cases t with
    | true =>
      simp [getPc] at hpc
      cases hB : s.pcF <;>
        simp_all [CInv, setPc, inCrit, inPub, passedBuild, startedBuild, bcount]
    | false =>
      simp [getPc] at hpc
      cases hA : s.pcT <;>
        simp_all [CInv, setPc, inCrit, inPub, passedBuild, startedBuild, bcount]
  | releaseH t hpc =>
    cases t with
    | true =>
      simp [getPc] at hpc
      cases hB : s.pcF <;>
        simp_all [CInv, setPc, inCrit, inPub, passedBuild, startedBuild, bcount]
    | false =>
      simp [getPc] at hpc
      cases hA : s.pcT <;>
        simp_all [CInv, setPc, inCrit, inPub, passedBuild, startedBuild, bcount]

theorem CInv_reach {s : CState} (h : CReach s) : CInv s := by
  induction h with
  | init => exact CInv_init
  | next _ hs ih => exact CInv_step ih hs

/-- C9: two concurrent resolutions of the same cache key starting from a
cache miss are serialized by the per-key lock — the threads are never
simultaneously inside the locked build-and-finalize phase — and when both
have finished, the external build capability was invoked exactly once
(the post-lock re-check turned the loser into a cache hit) and a
published, validator-passing `out/<binary>` exists for both callers. -/
theorem same_key_single_build :
    (∀ s, CReach s → ¬(inCrit s.pcT = true ∧ inCrit s.pcF = true)) ∧
    (∀ s, CReach s → isDone s.pcT = true → isDone s.pcF = true →
      s.builds = 1 ∧ s.outValid = true) := by
  constructor
  · rintro s hs ⟨hT, hF⟩
    obtain ⟨h1, h2, _⟩ := CInv_reach hs
    have e1 := h1 hT
    have e2 := h2 hF
    rw [e1] at e2
    simp at e2
  · intro s hs hT hF
    obtain ⟨h1, h2, h3, h4, h5, h6, h7⟩ := CInv_reach hs
    cases hA : s.pcT <;> cases hB : s.pcF <;>
      simp_all [isDone, inCrit, inPub, passedBuild, startedBuild, bcount]

/-- C9 witness: a concrete complete interleaving — thread `true` misses,
locks, builds, publishes and releases; thread `false` then observes the
published binary as a cache hit — ends with exactly one build invocation
and a valid published binary. -/
theorem same_key_single_build_witness :
    ({ pcT := .doneBuilt, pcF := .doneHit, lock := none, outValid := true,
        builds := 1 } : CState).builds = 1 ∧
    ({ pcT := .doneBuilt, pcF := .doneHit, lock := none, outValid := true,
        builds := 1 } : CState).outValid = true := by
  have r1 : CReach (setPc cInit true .waitLock) :=
    CReach.next CReach.init (CStep.preMiss cInit true rfl rfl)
  have r2 := CReach.next r1 (CStep.acquire _ true rfl rfl)
  have r3 := CReach.next r2 (CStep.postMiss _ true rfl rfl)
  have r4 := CReach.next r3 (CStep.build _ true rfl)
  have r5 := CReach.next r4 (CStep.publish _ true rfl)
  have r6 := CReach.next r5 (CStep.release _ true rfl)
  have r7 := CReach.next r6 (CStep.preHit _ false rfl rfl)
  exact same_key_single_build.2 _ r7 rfl rfl

end ZcashArtifacts
